import Mathlib

/-
  Verification development for the news-storyteller repository.

  Shallow embedding of:
  - the sequential Agent/Task/Crew pipeline engine
    (src/lib/ai-agents.ts and src/lib/crewai.ts: Agent.execute,
    Task.execute, Crew.kickoff),
  - the narration cache key derivation and the POST handler of
    src/app/api/crewai-narrator/route.ts (getCacheKey,
    getCachedNarration, saveToCacheWithKey),
  - the listing cache and service of src/lib/news-service.ts and the
    CacheManager (getNews, storeNews, scrapeAndCache, getLatestNews).

  Strings of the pipeline layer are modelled as List Char; JavaScript
  strings of the cache-key layer are modelled as lists of UTF-16 code
  units (List Nat), since getCacheKey hashes charCodeAt values.
  Asynchronous external effects (the LLM completion call, the article
  scrape, file writes) are passed in as explicit parameters; machine
  arithmetic of the 32-bit hash is modelled with Int and explicit
  reduction modulo 2 ^ 32.
-/

namespace NewsStoryteller

/-- Text of the pipeline layer: a JavaScript string as a list of characters. -/
abbrev Str := List Char

/-! ### Pipeline engine (src/lib/ai-agents.ts, identical in src/lib/crewai.ts) -/

/-- The literal template piece of Task.execute:
`Previous task result: ${t.output}`. -/
def prevMark : Str := "Previous task result: ".toList

/-- The newline separator used by the join in Task.execute. -/
def nlStr : Str := "\n".toList

/-- One task of the pipeline, as configured through TaskConfig:
a description, the agent that runs it (identified by a numeric id so
that invocations can be traced), and the list of prerequisite tasks
(`context`), given as indices into the task list of the Crew.
The expected_output field plays no role in execution and is omitted. -/
structure TaskSpec where
  description : Str
  agent : Nat
  context : List Nat
deriving DecidableEq

/-- The context string built at the start of Task.execute: each
prerequisite task is rendered as prevMark followed by its output, and
the lines are joined by newlines. `outs` holds the current `output`
field of every task of the crew (initialised to the empty string, as in
the Task class). -/
def contextStr (outs : List Str) (ctx : List Nat) : Str :=
  List.intercalate nlStr (ctx.map fun i => prevMark ++ outs.getD i [])

/-- The behaviour of the agents: given an agent id, a task description and
a context string, the agent either produces an output string or fails.
This is the observable interface of Agent.execute as used by
Task.execute; the internals of Agent.execute are modelled separately
below. -/
abbrev Behavior := Nat → Str → Str → Except Str Str

/-- A record of one invocation of an agent: which agent was called,
with which task description and which context string. -/
structure AgentCall where
  agent : Nat
  description : Str
  context : Str
deriving DecidableEq

/-- The outcome of a Crew.kickoff run: the returned value (or the
propagated error), the trace of agent invocations in the order they
happened, and the final `output` fields of all tasks. -/
structure RunResult where
  result : Except Str Str
  trace : List AgentCall
  outputs : List Str

/-- Position-indexed task list, as produced by iterating
`for (const task of this.tasks)` while tracking each task position. -/
def enumFrom (i : Nat) : List α → List (Nat × α)
  | [] => []
  | x :: xs => (i, x) :: enumFrom (i + 1) xs

/-- The loop body of Crew.kickoff threaded over the remaining tasks.
Each step is Task.execute: build the context string from the
prerequisite outputs, call the agent, store the result in the output
slot of the task, and remember it as `finalOutput`; on the first agent
failure the error is rethrown unchanged and no further task runs. -/
def kickoffFrom (beh : Behavior) :
    List (Nat × TaskSpec) → List Str → Str → RunResult
  | [], _outs, final => ⟨Except.ok final, [], _outs⟩
  | (i, t) :: rest, outs, _final =>
    let ctx := contextStr outs t.context
    match beh t.agent t.description ctx with
    | Except.error e => ⟨Except.error e, [⟨t.agent, t.description, ctx⟩], outs⟩
    | Except.ok r =>
      let rr := kickoffFrom beh rest (outs.set i r) r
      ⟨rr.result, ⟨t.agent, t.description, ctx⟩ :: rr.trace, rr.outputs⟩

/-- Crew.kickoff: run the tasks in declared order, starting from an
empty finalOutput and all task outputs initialised to the empty
string. -/
def kickoff (beh : Behavior) (tasks : List TaskSpec) : RunResult :=
  kickoffFrom beh (enumFrom 0 tasks) (List.replicate tasks.length []) []

/-- Last element of a list, used to speak about the final agent call of
a trace. -/
def lastOf : List α → Option α
  | [] => none
  | [c] => some c
  | _ :: c :: rest => lastOf (c :: rest)

/-! #### Helper lemmas on the enumeration and on kickoffFrom -/

lemma enumFrom_map_snd (i : Nat) (l : List α) :
    (enumFrom i l).map Prod.snd = l := by
  induction l generalizing i with
  | nil => rfl
  | cons x xs ih => simp [enumFrom, ih]

lemma enumFrom_fst_lt (i : Nat) (l : List α) :
    ∀ p ∈ enumFrom i l, p.1 < i + l.length := by
  induction l generalizing i with
  | nil => intro p hp; simp [enumFrom] at hp
  | cons x xs ih =>
    intro p hp
    simp only [enumFrom, List.mem_cons] at hp
    rcases hp with h | h
    · subst h; simp
    · have := ih (i + 1) p h
      simp at this ⊢
      omega

lemma enumFrom_ne_nil (i : Nat) (l : List α) (h : l ≠ []) :
    enumFrom i l ≠ [] := by
  cases l with
  | nil => exact absurd rfl h
  | cons x xs => simp [enumFrom]

lemma lastOf_cons_of_ne_nil (a : α) (l : List α) (h : l ≠ []) :
    lastOf (a :: l) = lastOf l := by
  cases l with
  | nil => exact absurd rfl h
  | cons b m => rfl

lemma lastOf_cons_some (a : α) (l : List α) : ∃ c, lastOf (a :: l) = some c := by
  induction l generalizing a with
  | nil => exact ⟨a, rfl⟩
  | cons b m ih =>
    obtain ⟨c, hc⟩ := ih b
    exact ⟨c, by rw [lastOf_cons_of_ne_nil _ _ (by simp)]; exact hc⟩

lemma lastOf_enumFrom_fst (l : List α) :
    ∀ i, l ≠ [] → (lastOf (enumFrom i l)).map Prod.fst = some (i + l.length - 1) := by
  induction l with
  | nil => intro i h; exact absurd rfl h
  | cons x xs ih =>
    intro i _
    cases hxs : xs with
    | nil => simp [enumFrom, lastOf]
    | cons y ys =>
      subst hxs
      have hne : enumFrom (i + 1) (y :: ys) ≠ [] :=
        enumFrom_ne_nil _ _ (by simp)
      rw [show enumFrom i (x :: y :: ys) = (i, x) :: enumFrom (i + 1) (y :: ys) from rfl,
        lastOf_cons_of_ne_nil _ _ hne, ih (i + 1) (by simp)]
      simp
      omega

lemma getD_set_self (l : List α) (i : Nat) (a d : α) (h : i < l.length) :
    (l.set i a).getD i d = a := by
  induction l generalizing i with
  | nil => simp at h
  | cons x xs ih =>
    cases i with
    | zero => rfl
    | succ j =>
      have hj : j < xs.length := by simpa using h
      simpa [List.set, List.getD] using ih j hj

/-- When every agent call succeeds, the kickoff loop produces one
invocation per remaining task, in order; the final value is the initial
one if no task remains and otherwise the value recorded in the output
slot of the last processed task. -/
lemma kickoffFrom_ok (beh : Behavior)
    (hok : ∀ a d c, ∃ r, beh a d c = Except.ok r) :
    ∀ (rest : List (Nat × TaskSpec)) (outs : List Str) (final : Str),
      (∀ p ∈ rest, p.1 < outs.length) →
      ∃ (f : Str) (tr : List AgentCall) (outs2 : List Str),
        kickoffFrom beh rest outs final = ⟨Except.ok f, tr, outs2⟩ ∧
        tr.map (fun c => c.agent) = rest.map (fun p => p.2.agent) ∧
        outs2.length = outs.length ∧
        (match lastOf rest with
         | none => f = final ∧ outs2 = outs
         | some p => outs2.getD p.1 [] = f) := by
  intro rest
  induction rest with
  | nil =>
    intro outs final _
    exact ⟨final, [], outs, rfl, rfl, rfl, rfl, rfl⟩
  | cons p rest ih =>
    intro outs final hidx
    obtain ⟨i, t⟩ := p
    obtain ⟨r, hr⟩ := hok t.agent t.description (contextStr outs t.context)
    have hstep : kickoffFrom beh ((i, t) :: rest) outs final =
        ⟨(kickoffFrom beh rest (outs.set i r) r).result,
         ⟨t.agent, t.description, contextStr outs t.context⟩ ::
           (kickoffFrom beh rest (outs.set i r) r).trace,
         (kickoffFrom beh rest (outs.set i r) r).outputs⟩ := by
      simp only [kickoffFrom, hr]
    have hidx2 : ∀ p ∈ rest, p.1 < (outs.set i r).length := by
      intro q hq
      have := hidx q (List.mem_cons_of_mem _ hq)
      simpa using this
    obtain ⟨f, tr, outs2, hrun, hmap, hlen, hlast⟩ :=
      ih (outs.set i r) r hidx2
    refine ⟨f, ⟨t.agent, t.description, contextStr outs t.context⟩ :: tr, outs2,
      ?_, ?_, ?_, ?_⟩
    · rw [hstep, hrun]
    · simp [hmap]
    · rw [hlen]; simp
    · cases rest with
      | nil =>
        simp only [lastOf] at hlast ⊢
        obtain ⟨hf, houts⟩ := hlast
        rw [houts, hf]
        exact getD_set_self outs i r [] (by simpa using hidx (i, t) (by simp))
      | cons q rest2 =>
        rw [lastOf_cons_of_ne_nil _ _ (by simp)]
        obtain ⟨c0, hc0⟩ := lastOf_cons_some q rest2
        rw [hc0] at hlast ⊢
        exact hlast

/-- The trace of the kickoff loop is always an initial segment of the
remaining tasks (in declared order), and when the loop fails, the
returned error is exactly the error produced by the agent of the last
invocation of the trace. -/
lemma kickoffFrom_error (beh : Behavior) :
    ∀ (rest : List (Nat × TaskSpec)) (outs : List Str) (final : Str),
      ((kickoffFrom beh rest outs final).trace.map (fun c => c.agent) <+:
        rest.map (fun p => p.2.agent)) ∧
      (∀ e, (kickoffFrom beh rest outs final).result = Except.error e →
        ∃ c, lastOf (kickoffFrom beh rest outs final).trace = some c ∧
          beh c.agent c.description c.context = Except.error e) := by
  intro rest
  induction rest with
  | nil =>
    intro outs final
    constructor
    · exact List.nil_prefix
    · intro e he
      simp [kickoffFrom] at he
  | cons p rest ih =>
    intro outs final
    obtain ⟨i, t⟩ := p
    cases hb : beh t.agent t.description (contextStr outs t.context) with
    | error e0 =>
      have hstep : kickoffFrom beh ((i, t) :: rest) outs final =
          ⟨Except.error e0,
           [⟨t.agent, t.description, contextStr outs t.context⟩], outs⟩ := by
        simp only [kickoffFrom, hb]
      rw [hstep]
      constructor
      · exact ⟨List.map (fun p => p.2.agent) rest, by simp⟩
      · intro e he
        simp only at he
        cases he
        exact ⟨_, rfl, hb⟩
    | ok r =>
      have hstep : kickoffFrom beh ((i, t) :: rest) outs final =
          ⟨(kickoffFrom beh rest (outs.set i r) r).result,
           ⟨t.agent, t.description, contextStr outs t.context⟩ ::
             (kickoffFrom beh rest (outs.set i r) r).trace,
           (kickoffFrom beh rest (outs.set i r) r).outputs⟩ := by
        simp only [kickoffFrom, hb]
      rw [hstep]
      obtain ⟨ihpre, iherr⟩ := ih (outs.set i r) r
      constructor
      · obtain ⟨s, hs⟩ := ihpre
        exact ⟨s, by simp only [List.map_cons, List.cons_append, hs]⟩
      · intro e he
        simp only at he
        obtain ⟨c, hc, hbc⟩ := iherr e he
        refine ⟨c, ?_, hbc⟩
        have htne : (kickoffFrom beh rest (outs.set i r) r).trace ≠ [] := by
          intro hnil
          rw [hnil] at hc
          simp [lastOf] at hc
        rw [lastOf_cons_of_ne_nil _ _ htne]
        exact hc

/-! ### Agent.execute internals (src/lib/ai-agents.ts lines 63-103)

The completion API response, as accessed by the expression
`response.choices[0]?.message?.content` with an empty-string fallback:
the first choice may be absent, the message field is accessed with
optional chaining, and the content may be null. -/

/-- Message of a completion choice; content may be null. -/
structure ChatMessage where
  content : Option Str
deriving DecidableEq

/-- One choice of a completion response; message accessed with `?.`. -/
structure ChatChoice where
  message : Option ChatMessage
deriving DecidableEq

/-- A completion response: a list of choices. -/
structure ChatResponse where
  choices : List ChatChoice
deriving DecidableEq

/-- The expression `response.choices[0]?.message?.content` with its
fallback to the empty string when the response carries no content. -/
def extractContent (r : ChatResponse) : Str :=
  match r.choices.head? with
  | none => []
  | some ch =>
    match ch.message with
    | none => []
    | some m =>
      match m.content with
      | none => []
      | some s => s

/-- The persona of an agent (role, goal, backstory). -/
structure AgentSpec where
  role : Str
  goal : Str
  backstory : Str
deriving DecidableEq

/-- The system prompt template of Agent.execute, concatenating the
persona header, the optional context block, and the completion request. -/
def systemPrompt (a : AgentSpec) (context : Str) : Str :=
  "You are ".toList ++ a.role ++ ".\n\nYour goal is: ".toList ++ a.goal ++
    "\n\nYour backstory: ".toList ++ a.backstory ++ "\n\n".toList ++
    (if context = [] then []
     else "Context from previous tasks:\n".toList ++ context) ++
    "\n\nPlease complete the following task:".toList

/-- Agent.execute: build the system prompt, call the completion client
with it and the task description as the user message; on an API error
rethrow that error unchanged, otherwise return the extracted content
(the empty string when the response has no content). The client call is
passed in as the function `create`. -/
def agentExecute (create : Str → Str → Except Str ChatResponse)
    (a : AgentSpec) (task_description context : Str) : Except Str Str :=
  match create (systemPrompt a context) task_description with
  | Except.error e => Except.error e
  | Except.ok r => Except.ok (extractContent r)

/-! ### Narration cache key (src/app/api/crewai-narrator/route.ts 16-28) -/

/-- A JavaScript string as its list of UTF-16 code units, the values
produced by charCodeAt. -/
abbrev JSStr := List Nat

/-- ToInt32: reduce a JavaScript number to a 32-bit signed integer,
as performed by the bitwise operators `<<` and `&`. -/
def jsToInt32 (x : Int) : Int := (x + 2 ^ 31) % 2 ^ 32 - 2 ^ 31

/-- One iteration of the hash loop:
`hash = (hash << 5) - hash + char; hash = hash & hash;`.
`hash << 5` reduces the shifted value to int32, and `hash & hash`
reduces the sum again. -/
def hashStep (h : Int) (c : Nat) : Int :=
  jsToInt32 (jsToInt32 (h * 32) - h + (c : Int))

/-- The accumulated hash of a string, starting from `let hash = 0`. -/
def hashJS (s : JSStr) : Int := s.foldl hashStep 0

/-- Code units of a string literal. -/
def codes (s : String) : JSStr := s.toList.map Char.toNat

/-- Decimal digit code units, fuelled so that evaluation is structural;
the fuel bounds the number of digits. -/
def natToCodesAux : Nat → Nat → JSStr
  | 0, _ => []
  | fuel + 1, n =>
    if n < 10 then [48 + n]
    else natToCodesAux fuel (n / 10) ++ [48 + n % 10]

/-- Decimal digit code units of a natural number, as produced by
JavaScript template interpolation of a nonnegative integer. -/
def natToCodes (n : Nat) : JSStr := natToCodesAux (n + 1) n

/-- getCacheKey: the content preview is the first 500 characters of the
article content when one is given (an absent content yields the empty
preview), the combined string is the newsLink, a pipe character, and
the contentPreview, and the key is `narration_` + Math.abs(hash) +
`.json`. -/
def getCacheKey (newsLink : JSStr) (articleContent : Option JSStr) : JSStr :=
  let contentPreview := match articleContent with
    | some c => c.take 500
    | none => []
  let combined := newsLink ++ codes "|" ++ contentPreview
  codes "narration_" ++ natToCodes (hashJS combined).natAbs ++ codes ".json"

/-- The key computed by getCachedNarration (route.ts line 36): the
lookup passes no article content to getCacheKey. -/
def lookupKey (url : JSStr) : JSStr := getCacheKey url none

/-- The key the POST handler stores under (route.ts line 129): derived
from the URL and the scraped article content. -/
def storeKey (url content : JSStr) : JSStr := getCacheKey url (some content)

/-! ### Narration route POST flow (route.ts lines 69-143) -/

/-- The narration cache: maps a key (file name) to a stored narration. -/
abbrev NCache := JSStr → Option JSStr

/-- The observable response of the POST handler. -/
inductive PostResponse where
  | cachedHit (narration : JSStr)
  | scrapeFailed
  | fresh (narration : JSStr)
deriving DecidableEq

/-- saveToCacheWithKey: write the narration under the given key; a write
failure (writeOk false) is caught inside the function, which merely
reports it, leaving the cache unchanged. -/
def saveToCacheWithKey (writeOk : Bool) (key narration : JSStr)
    (cache : NCache) : NCache :=
  if writeOk then fun k => if k = key then some narration else cache k
  else cache

/-- The POST handler: look up the cache under the content-free key; on a
hit return the cached narration; otherwise, if the article scrape
failed or yielded empty content, fail; otherwise run the pipeline
(whose narration output is the parameter `narr`), store the fresh
result under the content-based key, and return it. The response is
returned whether or not the cache write succeeded. -/
def postNarrator (cache : NCache) (writeOk : Bool) (url : JSStr)
    (scraped : Option (JSStr × JSStr)) (narr : JSStr) :
    PostResponse × NCache :=
  match cache (lookupKey url) with
  | some d => (PostResponse.cachedHit d, cache)
  | none =>
    match scraped with
    | none => (PostResponse.scrapeFailed, cache)
    | some (_, content) =>
      if content = [] then (PostResponse.scrapeFailed, cache)
      else
        (PostResponse.fresh narr,
          saveToCacheWithKey writeOk (storeKey url content) narr cache)

/-! ### Listing cache and news service (src/lib/news-service.ts) -/

/-- A stored listing cache entry: the cached data together with the
modification time of the cache file, set at write time and used by
isCacheExpired. -/
structure CacheEntry (α : Type) where
  data : α
  mtime : Nat
deriving DecidableEq

/-- CacheManager.getNews: absent file is a miss; when the caller does
not accept expired data and `now - mtime > maxAge` (isCacheExpired),
the entry is treated as a miss; otherwise the stored data is returned.
The parameter is named forceRefresh in the source but means
allowExpired. -/
def getNews (maxAge now : Nat) (st : Option (CacheEntry α))
    (allowExpired : Bool) : Option α :=
  match st with
  | none => none
  | some e =>
    if !allowExpired && decide (now - e.mtime > maxAge) then none
    else some e.data

/-- Error message head of CacheManager.storeNews on a write failure. -/
def storeFailHead : Str := "Failed to store cache: ".toList

/-- CacheManager.storeNews: on success replace the entry wholesale with
a fresh modification time; a write failure (writeErr = some message) is
rethrown wrapped in the storeNews message. -/
def storeNews (writeErr : Option Str) (now : Nat)
    (d : α) : Except Str (CacheEntry α) :=
  match writeErr with
  | none => Except.ok ⟨d, now⟩
  | some m => Except.error (storeFailHead ++ m)

/-- The state of the NewsService: the in-flight-scrape guard flag and
the listing cache contents. -/
structure SvcState (α : Type) where
  flag : Bool
  cache : Option (CacheEntry α)
deriving DecidableEq

/-- The guard message thrown when a scrape is already in flight. -/
def scrapingBusyMsg : Str := "Scraping already in progress".toList

/-- The fresh result returned by scrapeAndCache. -/
structure FreshResult (α : Type) where
  data : α
  fromCache : Bool
  freshlyScraped : Bool
deriving DecidableEq

/-- NewsService.scrapeAndCache: if the guard flag is already set, throw
immediately (without touching the flag, which belongs to the in-flight
scrape). Otherwise set the flag, scrape (outcome passed in as
`scrape`), store the result, and in all cases (the finally block)
clear the flag before returning or rethrowing. The third component
records whether the scraper was invoked. -/
def scrapeAndCache (now : Nat) (scrape : Except Str α)
    (writeErr : Option Str) (s : SvcState α) :
    Except Str (FreshResult α) × SvcState α × Bool :=
  if s.flag then (Except.error scrapingBusyMsg, s, false)
  else
    match scrape with
    | Except.error e => (Except.error e, ⟨false, s.cache⟩, true)
    | Except.ok d =>
      match storeNews writeErr now d with
      | Except.error e => (Except.error e, ⟨false, s.cache⟩, true)
      | Except.ok entry =>
        (Except.ok ⟨d, false, true⟩, ⟨false, some entry⟩, true)

/-- The fixed message attached to a stale fallback response
(news-service.ts line 76). -/
def staleMsg : Str := "Fresh data unavailable, showing cached data".toList

/-- Head of the hard error thrown when even the stale fallback is
absent (news-service.ts line 83). -/
def failMsgHead : Str := "Failed to get news: ".toList

/-- The response of getLatestNews. -/
structure NewsResponse (α : Type) where
  data : α
  fromCache : Bool
  isStale : Bool
  error : Option Str
deriving DecidableEq

/-- NewsService.getLatestNews: on forceRefresh (or when a scrape is in
progress) go straight to scrapeAndCache; otherwise serve a fresh cache
hit when useCache is set; otherwise scrapeAndCache. Any failure of the
attempt is caught: the expired-tolerant read getNews(..., true) is
tried, a hit is returned tagged isStale with the fixed stale message,
and if that is also absent the failure is rethrown wrapped in the
getLatestNews message. -/
def getLatestNews (forceRefresh useCache : Bool) (maxAge now : Nat)
    (scrape : Except Str α) (writeErr : Option Str) (s : SvcState α) :
    Except Str (NewsResponse α) × SvcState α :=
  let attempt : Except Str (NewsResponse α) × SvcState α :=
    if forceRefresh || s.flag then
      let r := scrapeAndCache now scrape writeErr s
      (r.1.map fun f => ⟨f.data, false, false, none⟩, r.2.1)
    else
      match (if useCache then getNews maxAge now s.cache false else none) with
      | some d => (Except.ok ⟨d, true, false, none⟩, s)
      | none =>
        let r := scrapeAndCache now scrape writeErr s
        (r.1.map fun f => ⟨f.data, false, false, none⟩, r.2.1)
  match attempt with
  | (Except.ok resp, s2) => (Except.ok resp, s2)
  | (Except.error e, s2) =>
    match getNews maxAge now s2.cache true with
    | some d => (Except.ok ⟨d, true, true, some staleMsg⟩, s2)
    | none => (Except.error (failMsgHead ++ e), s2)

/-! ### Arithmetic facts about the cache-key hash -/

lemma jsToInt32_range (x : Int) :
    -2 ^ 31 ≤ jsToInt32 x ∧ jsToInt32 x < 2 ^ 31 := by
  unfold jsToInt32
  have h1 : 0 ≤ (x + 2 ^ 31) % 2 ^ 32 := Int.emod_nonneg _ (by norm_num)
  have h2 : (x + 2 ^ 31) % 2 ^ 32 < 2 ^ 32 :=
    Int.emod_lt_of_pos _ (by norm_num)
  constructor <;> omega

lemma hashJS_range (s : JSStr) :
    -2 ^ 31 ≤ hashJS s ∧ hashJS s < 2 ^ 31 := by
  unfold hashJS
  have key : ∀ (l : JSStr) (h : Int),
      -2 ^ 31 ≤ h ∧ h < 2 ^ 31 →
      -2 ^ 31 ≤ l.foldl hashStep h ∧ l.foldl hashStep h < 2 ^ 31 := by
    intro l
    induction l with
    | nil => intro h hh; simpa using hh
    | cons c cs ih =>
      intro h _
      simp only [List.foldl_cons]
      exact ih (hashStep h c) (jsToInt32_range _)
  exact key s 0 (by norm_num)

lemma hashJS_natAbs_le (s : JSStr) : (hashJS s).natAbs ≤ 2 ^ 31 := by
  have := hashJS_range s
  omega

lemma natToCodesAux_mem (fuel : Nat) :
    ∀ n, ∀ c ∈ natToCodesAux fuel n, 48 ≤ c ∧ c ≤ 57 := by
  induction fuel with
  | zero => intro n c hc; simp [natToCodesAux] at hc
  | succ fuel ih =>
    intro n c hc
    unfold natToCodesAux at hc
    split at hc
    · simp at hc
      omega
    · rw [List.mem_append] at hc
      rcases hc with h | h
      · exact ih (n / 10) c h
      · simp at h
        have : n % 10 < 10 := Nat.mod_lt _ (by omega)
        omega

lemma natToCodes_mem (n : Nat) : ∀ c ∈ natToCodes n, 48 ≤ c ∧ c ≤ 57 :=
  natToCodesAux_mem (n + 1) n

/-- The context string for a two-element prerequisite list. -/
lemma contextStr_pair (outs : List Str) (i j : Nat) :
    contextStr outs [i, j] =
      prevMark ++ outs.getD i [] ++ nlStr ++ prevMark ++ outs.getD j [] := by
  simp [contextStr, List.intercalate, List.intersperse]

/-- The map over the enumeration projects back to the agents of the
task list. -/
lemma enumFrom_map_agent (tasks : List TaskSpec) :
    (enumFrom 0 tasks).map (fun p => p.2.agent) =
      tasks.map fun t => t.agent := by
  have h1 : (enumFrom 0 tasks).map (fun p => p.2.agent) =
      ((enumFrom 0 tasks).map Prod.snd).map fun t => t.agent := by
    rw [List.map_map]
    rfl
  rw [h1, enumFrom_map_snd]

/-- One successful step of the kickoff loop, stated with symbolic rest
so that the recursion does not unfold further. -/
lemma kickoffFrom_cons_ok (beh : Behavior) (i : Nat) (t : TaskSpec)
    (rest : List (Nat × TaskSpec)) (outs : List Str) (final : Str) (r : Str)
    (hb : beh t.agent t.description (contextStr outs t.context) =
      Except.ok r) :
    kickoffFrom beh ((i, t) :: rest) outs final =
      ⟨(kickoffFrom beh rest (outs.set i r) r).result,
       ⟨t.agent, t.description, contextStr outs t.context⟩ ::
         (kickoffFrom beh rest (outs.set i r) r).trace,
       (kickoffFrom beh rest (outs.set i r) r).outputs⟩ := by
  simp only [kickoffFrom, hb]

/-! ### Example behaviours shared by concrete instantiations -/

/-- A behaviour that fails for agent 9 with error `b` and succeeds with
output `x` otherwise. -/
def behTwo : Behavior := fun a _ _ =>
  if a = 9 then Except.error ['b'] else Except.ok ['x']

/-- A behaviour in which every agent call succeeds. -/
def behOk : Behavior := fun _ _ _ => Except.ok ['x']

/-- A behaviour returning a distinct output per agent id. -/
def behThree : Behavior := fun a _ _ =>
  Except.ok (if a = 0 then ['x'] else if a = 1 then ['y'] else ['z'])

/-! ### Claim theorems -/

/-- Claim C10: for every url and every (possibly absent) content string,
getCacheKey returns exactly `narration_` + n + `.json` for a
nonnegative integer n with n ≤ 2 ^ 31 (the hash is accumulated in
32-bit signed arithmetic with wraparound and its absolute value taken);
the key depends on the content only through its first 500 characters;
and the resulting file name contains no path separator (neither `/`,
code 47, nor a backslash, code 92). -/
theorem claim_C10_key_shape (url : JSStr) (content : Option JSStr) :
    ∃ n : Nat, n ≤ 2 ^ 31 ∧
      getCacheKey url content =
        codes "narration_" ++ natToCodes n ++ codes ".json" ∧
      getCacheKey url content =
        getCacheKey url (content.map fun c => c.take 500) ∧
      47 ∉ getCacheKey url content ∧ 92 ∉ getCacheKey url content := by
  refine ⟨(hashJS (url ++ codes "|" ++
      (match content with | some c => c.take 500 | none => []))).natAbs,
    hashJS_natAbs_le _, by cases content <;> rfl, ?_, ?_, ?_⟩
  · cases content with
    | none => rfl
    | some c =>
      show getCacheKey url (some c) = getCacheKey url (some (c.take 500))
      simp [getCacheKey, List.take_take]
  · intro h
    simp only [getCacheKey, List.mem_append] at h
    rcases h with (h | h) | h
    · revert h; decide
    · have := natToCodes_mem _ _ h; omega
    · revert h; decide
  · intro h
    simp only [getCacheKey, List.mem_append] at h
    rcases h with (h | h) | h
    · revert h; decide
    · have := natToCodes_mem _ _ h; omega
    · revert h; decide

/-- Claim C1 (code bug): the key used by the cache lookup of
getCachedNarration is computed from the URL alone (no article content
is passed), while the POST handler stores under the key derived from
the URL and the first 500 characters of the scraped content. At the
concrete input url `u`, content `x`, the two keys differ, so after a
successful store the very next identical request misses the cache and
recomputes, contradicting the read-path contract of the spec and the
documented GET-after-POST retrieval. -/
theorem claim_C1_lookup_store_key_mismatch :
    lookupKey (codes "u") ≠ storeKey (codes "u") (codes "x") ∧
    (postNarrator (fun _ => none) true (codes "u")
        (some (codes "t", codes "x")) (codes "n1")).2
      (storeKey (codes "u") (codes "x")) = some (codes "n1") ∧
    (postNarrator
        ((postNarrator (fun _ => none) true (codes "u")
          (some (codes "t", codes "x")) (codes "n1")).2)
        true (codes "u") (some (codes "t", codes "x")) (codes "n2")).1 =
      PostResponse.fresh (codes "n2") := by
  refine ⟨by decide, by decide, by decide⟩

/-- Claim C8 (counterexample): a completion response containing no
content does produce a normal, non-error return value: Agent.execute
returns the empty string when the response has an empty choices list,
instead of failing with an UpstreamGenerationError (no such error type
exists in the code). -/
theorem claim_C8_counterexample :
    agentExecute (fun _ _ => Except.ok ⟨[]⟩) ⟨['r'], ['g'], ['b']⟩ ['d'] [] =
      Except.ok [] := rfl

/-- Claim C8 (amended): Agent.execute rethrows the raw error of the
underlying API call unchanged when the call fails, and returns the
empty string as a normal value when the call succeeds with a response
carrying no content. -/
theorem claim_C8_amended_raw_propagation
    (create1 create2 : Str → Str → Except Str ChatResponse)
    (a : AgentSpec) (d c e : Str) (r : ChatResponse)
    (h1 : create1 (systemPrompt a c) d = Except.error e)
    (h2 : create2 (systemPrompt a c) d = Except.ok r)
    (hr : r.choices = []) :
    agentExecute create1 a d c = Except.error e ∧
    agentExecute create2 a d c = Except.ok [] := by
  constructor
  · unfold agentExecute
    rw [h1]
  · unfold agentExecute
    rw [h2]
    show Except.ok (extractContent r) = Except.ok []
    unfold extractContent
    rw [hr]
    rfl

/-- Witness for claim C8 (amended), at a concrete failing client and a
concrete no-content client. -/
theorem claim_C8_witness :
    agentExecute (fun _ _ => Except.error ['e']) ⟨['r'], ['g'], ['b']⟩
        ['d'] [] = Except.error ['e'] ∧
    agentExecute (fun _ _ => Except.ok ⟨[]⟩) ⟨['r'], ['g'], ['b']⟩
        ['d'] [] = Except.ok [] :=
  claim_C8_amended_raw_propagation (fun _ _ => Except.error ['e'])
    (fun _ _ => Except.ok ⟨[]⟩) ⟨['r'], ['g'], ['b']⟩ ['d'] [] ['e'] ⟨[]⟩
    rfl rfl rfl

/-- Claim C9: the scrape-and-cache guard. A call entered with the flag
clear invokes the scraper and ends with the flag clear again, whether
the scrape and the store succeed or fail (the finally block); a call
entered while the flag is already held fails immediately with the
busy message, does not invoke the scraper, and leaves the state (in
particular the flag of the in-flight scrape) untouched. -/
theorem claim_C9_scrape_guard {α : Type} (now : Nat) (scrape : Except Str α)
    (writeErr : Option Str) (c : Option (CacheEntry α)) :
    (scrapeAndCache now scrape writeErr ⟨false, c⟩).2.1.flag = false ∧
    (scrapeAndCache now scrape writeErr ⟨false, c⟩).2.2 = true ∧
    (scrapeAndCache now scrape writeErr ⟨true, c⟩).1 =
      Except.error scrapingBusyMsg ∧
    (scrapeAndCache now scrape writeErr ⟨true, c⟩).2.1 = ⟨true, c⟩ ∧
    (scrapeAndCache now scrape writeErr ⟨true, c⟩).2.2 = false := by
  unfold scrapeAndCache
  cases scrape <;> cases writeErr <;> simp [storeNews]

/-- Claim C6: with maxAge T, an entry written at t0 is served by a
non-expired-tolerating read at any time up to t0 + T (in particular at
t0 + T - ε), treated as a miss as soon as its age exceeds T (at
t0 + T + ε), and served by an expired-tolerating read at any time. -/
theorem claim_C6_staleness_boundary {α : Type} (T t0 ε now2 : Nat) (d : α)
    (hε : 0 < ε) (hεT : ε ≤ T) :
    getNews T (t0 + T - ε) (some ⟨d, t0⟩) false = some d ∧
    getNews T (t0 + T + ε) (some ⟨d, t0⟩) false = none ∧
    getNews T now2 (some ⟨d, t0⟩) true = some d := by
  unfold getNews
  have h1 : ¬(t0 + T - ε - t0 > T) := by omega
  have h2 : t0 + T + ε - t0 > T := by omega
  simp [h1, h2]

/-- Witness for claim C6 at T = 10, t0 = 100, ε = 3. -/
theorem claim_C6_witness :
    getNews 10 107 (some ⟨(7 : Nat), 100⟩) false = some 7 ∧
    getNews 10 113 (some ⟨(7 : Nat), 100⟩) false = none ∧
    getNews 10 999 (some ⟨(7 : Nat), 100⟩) true = some 7 :=
  claim_C6_staleness_boundary 10 100 3 999 7 (by decide) (by decide)

/-- Claim C2 (counterexample): kickoff does not fail with a
PipelineTaskError carrying the index or identity of the failing task:
it rethrows the raw underlying error. Two pipelines failing at
different positions (the first task of the first, the second task of
the second) produce literally identical failures, so the surfaced
failure carries no information about which task failed. -/
theorem claim_C2_counterexample :
    (kickoff behTwo [⟨['d'], 9, []⟩, ⟨['e'], 1, []⟩]).result =
      (kickoff behTwo [⟨['d'], 1, []⟩, ⟨['e'], 9, []⟩]).result ∧
    (kickoff behTwo [⟨['d'], 9, []⟩, ⟨['e'], 1, []⟩]).result =
      Except.error ['b'] ∧
    (kickoff behTwo [⟨['d'], 9, []⟩, ⟨['e'], 1, []⟩]).trace.length = 1 ∧
    (kickoff behTwo [⟨['d'], 1, []⟩, ⟨['e'], 9, []⟩]).trace.length = 2 :=
  ⟨rfl, rfl, rfl, rfl⟩

/-- Claim C2 (amended): when kickoff fails, the invoked agents are an
initial segment of the declared task order (no later task runs after
the failure), and the returned error is exactly the raw error produced
by the agent of the last invocation — the failure of the failing task
itself, propagated unchanged, with no wrapping error type. -/
theorem claim_C2_amended_abort_raw_error (beh : Behavior)
    (tasks : List TaskSpec) (e : Str)
    (h : (kickoff beh tasks).result = Except.error e) :
    ((kickoff beh tasks).trace.map fun c => c.agent) <+:
      (tasks.map fun t => t.agent) ∧
    ∃ c, lastOf (kickoff beh tasks).trace = some c ∧
      beh c.agent c.description c.context = Except.error e := by
  obtain ⟨hpre, herr⟩ :=
    kickoffFrom_error beh (enumFrom 0 tasks)
      (List.replicate tasks.length []) []
  constructor
  · have hmap := enumFrom_map_agent tasks
    rw [← hmap]
    exact hpre
  · exact herr e h

/-- Witness for claim C2 (amended): a two-task pipeline whose first
task fails with error `b`. -/
theorem claim_C2_witness :
    ((kickoff behTwo [⟨['d'], 9, []⟩, ⟨['e'], 1, []⟩]).trace.map
        fun c => c.agent) <+:
      ([⟨['d'], 9, []⟩, ⟨['e'], 1, []⟩].map fun t : TaskSpec => t.agent) ∧
    ∃ c, lastOf (kickoff behTwo [⟨['d'], 9, []⟩, ⟨['e'], 1, []⟩]).trace =
        some c ∧
      behTwo c.agent c.description c.context = Except.error ['b'] :=
  claim_C2_amended_abort_raw_error behTwo
    [⟨['d'], 9, []⟩, ⟨['e'], 1, []⟩] ['b'] rfl

/-- Claim C3: for a non-empty task list on which every agent call
succeeds, kickoff invokes exactly one agent per task, in the declared
order (the execution of the embedding is sequential by construction),
and returns the recorded output of the last task as the pipeline
result. -/
theorem claim_C3_sequential_last_output (beh : Behavior)
    (tasks : List TaskSpec) (hne : tasks ≠ [])
    (hok : ∀ a d c, ∃ r, beh a d c = Except.ok r) :
    (kickoff beh tasks).result =
      Except.ok ((kickoff beh tasks).outputs.getD (tasks.length - 1) []) ∧
    ((kickoff beh tasks).trace.map fun c => c.agent) =
      tasks.map fun t => t.agent := by
  obtain ⟨f, tr, outs2, hrun, hmap, hlen, hlast⟩ :=
    kickoffFrom_ok beh hok (enumFrom 0 tasks)
      (List.replicate tasks.length []) []
      (by
        intro p hp
        have := enumFrom_fst_lt 0 tasks p hp
        simpa using this)
  have hk : kickoff beh tasks = ⟨Except.ok f, tr, outs2⟩ := hrun
  have hfst := lastOf_enumFrom_fst tasks 0 hne
  cases hl : lastOf (enumFrom 0 tasks) with
  | none => rw [hl] at hfst; simp at hfst
  | some p =>
    rw [hl] at hlast hfst
    simp only [Option.map_some', Option.some.injEq] at hfst
    constructor
    · rw [hk]
      have : outs2.getD (tasks.length - 1) [] = f := by
        rw [show tasks.length - 1 = p.1 by omega]
        exact hlast
      rw [this]
    · rw [hk]
      have := enumFrom_map_agent tasks
      rw [← this]
      exact hmap

/-- Witness for claim C3: a concrete two-task pipeline under a behaviour
that always succeeds. -/
theorem claim_C3_witness :
    (kickoff behOk [⟨['d'], 0, []⟩, ⟨['e'], 1, [0]⟩]).result =
      Except.ok ((kickoff behOk [⟨['d'], 0, []⟩, ⟨['e'], 1, [0]⟩]).outputs.getD
        (([⟨['d'], 0, []⟩, ⟨['e'], 1, [0]⟩] : List TaskSpec).length - 1) []) ∧
    ((kickoff behOk [⟨['d'], 0, []⟩, ⟨['e'], 1, [0]⟩]).trace.map
        fun c => c.agent) =
      ([⟨['d'], 0, []⟩, ⟨['e'], 1, [0]⟩] : List TaskSpec).map
        fun t => t.agent :=
  claim_C3_sequential_last_output behOk [⟨['d'], 0, []⟩, ⟨['e'], 1, [0]⟩]
    (by decide) (fun _ _ _ => ⟨['x'], rfl⟩)

/-- Claim C4: Task.execute builds the context by rendering each
prerequisite output as a `Previous task result:` line, joined by
newlines in prerequisite order, passes it with the task description to
the agent, and records the result as the task output. For a pipeline
A, B, C with C depending on [A, B], the agent of C is invoked with a
context equal to the two rendered lines of the recorded outputs of A
and B — hence containing both outputs verbatim as contiguous sublists,
in the order A then B — the outputs are recorded per task, and the
pipeline result is the output of C. -/
theorem claim_C4_context_threading (beh : Behavior) (A B C : TaskSpec)
    (hA0 : A.context = []) (hB0 : B.context = []) (hC0 : C.context = [0, 1])
    (rA rB rC : Str)
    (hA : beh A.agent A.description [] = Except.ok rA)
    (hB : beh B.agent B.description [] = Except.ok rB)
    (hC : beh C.agent C.description
        (prevMark ++ rA ++ nlStr ++ prevMark ++ rB) = Except.ok rC) :
    (kickoff beh [A, B, C]).result = Except.ok rC ∧
    (kickoff beh [A, B, C]).outputs = [rA, rB, rC] ∧
    (kickoff beh [A, B, C]).trace =
      [⟨A.agent, A.description, []⟩, ⟨B.agent, B.description, []⟩,
       ⟨C.agent, C.description, prevMark ++ rA ++ nlStr ++ prevMark ++ rB⟩] ∧
    ∃ p m s, prevMark ++ rA ++ nlStr ++ prevMark ++ rB =
      p ++ rA ++ m ++ rB ++ s := by
  have e1 : contextStr [[], [], []] A.context = [] := by rw [hA0]; rfl
  have e2 : contextStr [rA, [], []] B.context = [] := by rw [hB0]; rfl
  have e3 : contextStr [rA, rB, []] C.context =
      prevMark ++ rA ++ nlStr ++ prevMark ++ rB := by
    rw [hC0, contextStr_pair]
    rfl
  have hb3 : beh C.agent C.description (contextStr [rA, rB, []] C.context) =
      Except.ok rC := by rw [e3]; exact hC
  have hb2 : beh B.agent B.description (contextStr [rA, [], []] B.context) =
      Except.ok rB := by rw [e2]; exact hB
  have hb1 : beh A.agent A.description (contextStr [[], [], []] A.context) =
      Except.ok rA := by rw [e1]; exact hA
  have s3 : kickoffFrom beh [(2, C)] [rA, rB, []] rB =
      ⟨Except.ok rC,
       [⟨C.agent, C.description, prevMark ++ rA ++ nlStr ++ prevMark ++ rB⟩],
       [rA, rB, rC]⟩ := by
    rw [kickoffFrom_cons_ok beh 2 C [] [rA, rB, []] rB rC hb3, e3]
    rfl
  have s2 : kickoffFrom beh [(1, B), (2, C)] [rA, [], []] rA =
      ⟨Except.ok rC,
       [⟨B.agent, B.description, []⟩,
        ⟨C.agent, C.description, prevMark ++ rA ++ nlStr ++ prevMark ++ rB⟩],
       [rA, rB, rC]⟩ := by
    rw [kickoffFrom_cons_ok beh 1 B [(2, C)] [rA, [], []] rA rB hb2]
    rw [show ([rA, [], []] : List Str).set 1 rB = [rA, rB, []] from rfl]
    rw [s3, e2]
  have s1 : kickoff beh [A, B, C] =
      ⟨Except.ok rC,
       [⟨A.agent, A.description, []⟩, ⟨B.agent, B.description, []⟩,
        ⟨C.agent, C.description, prevMark ++ rA ++ nlStr ++ prevMark ++ rB⟩],
       [rA, rB, rC]⟩ := by
    show kickoffFrom beh [(0, A), (1, B), (2, C)] [[], [], []] [] = _
    rw [kickoffFrom_cons_ok beh 0 A [(1, B), (2, C)] [[], [], []] [] rA hb1]
    rw [show ([[], [], []] : List Str).set 0 rA = [rA, [], []] from rfl]
    rw [s2, e1]
  refine ⟨by rw [s1], by rw [s1], by rw [s1], prevMark, nlStr ++ prevMark, [], ?_⟩
  simp [List.append_assoc]

/-- Witness for claim C4: a concrete three-task pipeline under a
behaviour returning a distinct output per agent. -/
theorem claim_C4_witness :
    (kickoff behThree [⟨['d'], 0, []⟩, ⟨['e'], 1, []⟩, ⟨['f'], 2, [0, 1]⟩]).result =
      Except.ok ['z'] ∧
    (kickoff behThree [⟨['d'], 0, []⟩, ⟨['e'], 1, []⟩, ⟨['f'], 2, [0, 1]⟩]).outputs =
      [['x'], ['y'], ['z']] ∧
    (kickoff behThree [⟨['d'], 0, []⟩, ⟨['e'], 1, []⟩, ⟨['f'], 2, [0, 1]⟩]).trace =
      [⟨0, ['d'], []⟩, ⟨1, ['e'], []⟩,
       ⟨2, ['f'], prevMark ++ ['x'] ++ nlStr ++ prevMark ++ ['y']⟩] ∧
    ∃ p m s, prevMark ++ ['x'] ++ nlStr ++ prevMark ++ ['y'] =
      p ++ ['x'] ++ m ++ ['y'] ++ s :=
  claim_C4_context_threading behThree ⟨['d'], 0, []⟩ ⟨['e'], 1, []⟩
    ⟨['f'], 2, [0, 1]⟩ rfl rfl rfl ['x'] ['y'] ['z'] rfl rfl rfl

/-- Claim C5 (counterexample): the stale fallback does not attach the
triggering error: two refresh attempts failing with different errors
(netfail and diskfail) produce identical responses whose error field is
the fixed message, which differs from both triggering errors. -/
theorem claim_C5_counterexample :
    getLatestNews true true 1 100 (Except.error "netfail".toList) none
        (⟨false, some ⟨(7 : Nat), 0⟩⟩ : SvcState Nat) =
      getLatestNews true true 1 100 (Except.error "diskfail".toList) none
        ⟨false, some ⟨7, 0⟩⟩ ∧
    (getLatestNews true true 1 100 (Except.error "netfail".toList) none
        (⟨false, some ⟨(7 : Nat), 0⟩⟩ : SvcState Nat)).1 =
      Except.ok ⟨7, true, true, some staleMsg⟩ ∧
    staleMsg ≠ "netfail".toList ∧ staleMsg ≠ "diskfail".toList := by
  refine ⟨rfl, rfl, by decide, by decide⟩

/-- Claim C5 (amended): if the refresh attempt of a forced-refresh
request fails, getLatestNews falls back to the expired-tolerant read:
when a previously written (possibly expired) entry exists it is
returned tagged isStale with the fixed stale message attached (not the
triggering error), and when no entry exists the failure propagates as
a hard error wrapping the triggering error text. -/
theorem claim_C5_amended_stale_fallback {α : Type} (useCache : Bool)
    (maxAge now : Nat) (scrape : Except Str α) (writeErr : Option Str)
    (s : SvcState α) (e : Str)
    (hfail : (scrapeAndCache now scrape writeErr s).1 = Except.error e) :
    getLatestNews true useCache maxAge now scrape writeErr s =
      match s.cache with
      | some entry =>
        (Except.ok ⟨entry.data, true, true, some staleMsg⟩,
          (scrapeAndCache now scrape writeErr s).2.1)
      | none =>
        (Except.error (failMsgHead ++ e),
          (scrapeAndCache now scrape writeErr s).2.1) := by
  rcases s with ⟨flag, cache⟩
  cases flag <;> cases scrape <;> cases writeErr <;> cases cache <;>
    simp_all [getLatestNews, scrapeAndCache, storeNews, getNews, Except.map]

/-- Witness for claim C5 (amended): a failing scrape over an expired
entry written at time 0, read at time 100 with maxAge 1. -/
theorem claim_C5_witness :
    getLatestNews true true 1 100 (Except.error ['x']) none
        (⟨false, some ⟨(7 : Nat), 0⟩⟩ : SvcState Nat) =
      (Except.ok ⟨7, true, true, some staleMsg⟩, ⟨false, some ⟨7, 0⟩⟩) :=
  claim_C5_amended_stale_fallback true 1 100 (Except.error ['x']) none
    ⟨false, some ⟨7, 0⟩⟩ ['x'] rfl

/-- Claim C7 (counterexample): on the listing path a cache-write
failure is not swallowed: with a successful scrape (fresh value 7) and
a failing store, scrapeAndCache fails with the store error instead of
returning the fresh value. -/
theorem claim_C7_counterexample :
    (scrapeAndCache 50 (Except.ok (7 : Nat)) (some "disk full".toList)
        (⟨false, none⟩ : SvcState Nat)).1 =
      Except.error (storeFailHead ++ "disk full".toList) ∧
    (scrapeAndCache 50 (Except.ok (7 : Nat)) (some "disk full".toList)
        (⟨false, none⟩ : SvcState Nat)).2.2 = true :=
  ⟨rfl, rfl⟩

/-- Claim C7 (amended): on the narration path a cache-write failure is
swallowed: the POST handler returns the fresh narration whether the
write succeeds or fails, and a failed write leaves the cache unchanged.
On the listing path, a store failure propagates out of scrapeAndCache
wrapped in the storeNews message, so the freshly scraped listing is not
returned by that call. -/
theorem claim_C7_amended_write_failure {α : Type} (cache : NCache)
    (url title content narr : JSStr) (hcontent : content ≠ [])
    (hmiss : cache (lookupKey url) = none)
    (now : Nat) (d : α) (m : Str) (lcache : Option (CacheEntry α)) :
    (postNarrator cache false url (some (title, content)) narr).1 =
      PostResponse.fresh narr ∧
    (postNarrator cache false url (some (title, content)) narr).2 = cache ∧
    (postNarrator cache true url (some (title, content)) narr).1 =
      PostResponse.fresh narr ∧
    (scrapeAndCache now (Except.ok d) (some m)
        (⟨false, lcache⟩ : SvcState α)).1 =
      Except.error (storeFailHead ++ m) := by
  unfold postNarrator saveToCacheWithKey
  rw [hmiss]
  simp [hcontent, scrapeAndCache, storeNews]

/-- Witness for claim C7 (amended) at concrete inputs. -/
theorem claim_C7_witness :
    (postNarrator (fun _ => none) false (codes "u")
        (some (codes "t", codes "x")) (codes "n")).1 =
      PostResponse.fresh (codes "n") ∧
    (postNarrator (fun _ => none) false (codes "u")
        (some (codes "t", codes "x")) (codes "n")).2 = (fun _ => none) ∧
    (postNarrator (fun _ => none) true (codes "u")
        (some (codes "t", codes "x")) (codes "n")).1 =
      PostResponse.fresh (codes "n") ∧
    (scrapeAndCache 50 (Except.ok (7 : Nat)) (some ['m'])
        (⟨false, none⟩ : SvcState Nat)).1 =
      Except.error (storeFailHead ++ ['m']) :=
  claim_C7_amended_write_failure (fun _ => none) (codes "u") (codes "t")
    (codes "x") (codes "n") (by decide) rfl 50 (7 : Nat) ['m'] none

end NewsStoryteller
